import Mathlib

/-!
# Shallow embedding of the nettf wire-protocol engine

This file embeds the transfer engine of the nettf utility (`protocol.c`,
`adaptive.c`, `server.c`) in Lean and settles the specification claims about
it.  Byte strings and wire streams are `List ℕ` whose entries are bytes; a
stream value is the complete sequence of bytes the peer will ever send, so
`recv`-ing past its end models the peer closing the connection.  Machine
integers are `ℕ` (with explicit `% 2 ^ 64` facts where wrap-around matters),
speeds (C `double`) are `ℚ`, and wall-clock times (`time_t`) are `ℤ`.
The chunk sizes produced by `adaptive_get_chunk_size` during a transfer are
abstracted as a schedule `sched : ℕ → ℕ`; the adaptive layer is embedded
separately and guarantees every such value is at least `MIN_CHUNK_SIZE ≥ 1`,
which is the only property the byte-stream layer needs.
-/

/-! ## Endian codec (`htonll` / `ntohll` in protocol.c) -/

/-- Byte `k` (counting from the least significant end) of the natural `v`. -/
def byteAt (v k : ℕ) : ℕ := v / 2 ^ (8 * k) % 256

/-- The 32-bit byte swap: the effect of `htonl` (equally `ntohl`) on a
little-endian host. -/
def bswap32 (w : ℕ) : ℕ :=
  byteAt w 0 * 2 ^ 24 + byteAt w 1 * 2 ^ 16 + byteAt w 2 * 2 ^ 8 + byteAt w 3

/-- Function `htonll` on a little-endian host:
`((uint64_t)htonl(value & 0xFFFFFFFF) << 32) | htonl(value >> 32)`. -/
def htonll_le (value : ℕ) : ℕ :=
  bswap32 (value % 2 ^ 32) * 2 ^ 32 + bswap32 (value / 2 ^ 32 % 2 ^ 32)

/-- Function `ntohll` on a little-endian host (same byte shuffle as `htonll_le`). -/
def ntohll_le (value : ℕ) : ℕ :=
  bswap32 (value % 2 ^ 32) * 2 ^ 32 + bswap32 (value / 2 ^ 32 % 2 ^ 32)

/-- Function `htonll` on a big-endian host: the identity (`#else` branch). -/
def htonll_be (value : ℕ) : ℕ := value

/-- Function `ntohll` on a big-endian host: the identity. -/
def ntohll_be (value : ℕ) : ℕ := value

/-- The eight bytes of a `uint64_t` as laid out in memory (and handed to
`send`) on a little-endian host. -/
def storeLe64 (x : ℕ) : List ℕ :=
  [byteAt x 0, byteAt x 1, byteAt x 2, byteAt x 3,
   byteAt x 4, byteAt x 5, byteAt x 6, byteAt x 7]

/-- The eight bytes of a `uint64_t` as laid out in memory on a big-endian
host. -/
def storeBe64 (x : ℕ) : List ℕ :=
  [byteAt x 7, byteAt x 6, byteAt x 5, byteAt x 4,
   byteAt x 3, byteAt x 2, byteAt x 1, byteAt x 0]

/-- Big-endian wire encoding of a 64-bit header field. -/
def be64 (v : ℕ) : List ℕ := storeBe64 v

/-- Big-endian wire encoding of a 32-bit magic. -/
def be32 (v : ℕ) : List ℕ := [byteAt v 3, byteAt v 2, byteAt v 1, byteAt v 0]

/-- Value of a big-endian byte string: what `ntohll` (resp. `ntohl`) yields
after the receiver loads the wire bytes into a header struct. -/
def readBe64 (l : List ℕ) : ℕ := l.foldl (fun a b => a * 256 + b) 0

/-- Value of a 4-byte big-endian byte string on the receiver. -/
def readBe32 (l : List ℕ) : ℕ := l.foldl (fun a b => a * 256 + b) 0

theorem be64_length (v : ℕ) : (be64 v).length = 8 := rfl

theorem be32_length (v : ℕ) : (be32 v).length = 4 := rfl

theorem readBe64_be64 (v : ℕ) (h : v < 2 ^ 64) : readBe64 (be64 v) = v := by
  simp only [readBe64, be64, storeBe64, byteAt, List.foldl]
  omega

theorem readBe32_be32 (v : ℕ) (h : v < 2 ^ 32) : readBe32 (be32 v) = v := by
  simp only [readBe32, be32, byteAt, List.foldl]
  omega

/-! ## Byte courier (`send_all` / `recv_all`) -/

/-- Model of `recv_all(s, buf, n)`: read exactly `n` bytes from the stream, or fail when
the peer closes first (stream exhausted).  `send_all` needs no model of its
own: on the sender side the emitted stream is the concatenation of the sent
buffers. -/
def readN (n : ℕ) (s : List ℕ) : Option (List ℕ × List ℕ) :=
  if s.length < n then none else some (s.take n, s.drop n)

theorem readN_append (l r : List ℕ) : readN l.length (l ++ r) = some (l, r) := by
  unfold readN
  rw [if_neg (by simp), List.take_left, List.drop_left]

theorem readN_append_of_len (n : ℕ) (l r : List ℕ) (h : l.length = n) :
    readN n (l ++ r) = some (l, r) := by
  subst h; exact readN_append l r

/-! ## Chunked body loops

The sender reads a file with `fread(buffer, 1, chunk_size, file)` and sends
each chunk until `fread` returns `0`; the receiver reads
`min(remaining, chunk_size)` bytes per iteration until `file_size` bytes have
arrived.  Both loops consult `adaptive_get_chunk_size` before each iteration;
here the sizes consulted are a schedule `sched : ℕ → ℕ`.  The loops recurse on
explicit fuel (one unit per iteration); the wrapper passes the byte count as
fuel, which suffices because every iteration with a positive chunk size moves
at least one byte. -/

/-- One `fread`/`send_all` iteration of the sender's content loop. -/
def sendChunksGo (sched : ℕ → ℕ) : ℕ → ℕ → List ℕ → List ℕ
  | 0, _, _ => []
  | fuel + 1, i, content =>
    if min content.length (sched i) = 0 then []
    else
      content.take (min content.length (sched i)) ++
        sendChunksGo sched fuel (i + 1) (content.drop (min content.length (sched i)))

/-- Bytes put on the wire by the sender's chunked content loop. -/
def sendChunks (sched : ℕ → ℕ) (i : ℕ) (content : List ℕ) : List ℕ :=
  sendChunksGo sched content.length i content

theorem sendChunksGo_eq (sched : ℕ → ℕ) (h : ∀ j, 1 ≤ sched j) :
    ∀ fuel i content, content.length ≤ fuel →
      sendChunksGo sched fuel i content = content := by
  intro fuel
  induction fuel with
  | zero =>
    intro i content hc
    rw [List.length_eq_zero.mp (Nat.le_zero.mp hc)]
    rfl
  | succ n ih =>
    intro i content hc
    rcases content with _ | ⟨a, tl⟩
    · simp [sendChunksGo]
    · have hk : min (a :: tl).length (sched i) ≠ 0 := by
        have := h i
        simp [Nat.min_eq_zero_iff]
        omega
      rw [sendChunksGo, if_neg hk, ih (i + 1)]
      · exact List.take_append_drop _ _
      · have h1 : 1 ≤ min (a :: tl).length (sched i) := by
          have := h i
          simp
          omega
        simp only [List.length_drop]
        omega

theorem sendChunks_eq (sched : ℕ → ℕ) (h : ∀ j, 1 ≤ sched j) (i : ℕ)
    (content : List ℕ) : sendChunks sched i content = content :=
  sendChunksGo_eq sched h content.length i content le_rfl

/-- One iteration of the receiver's content loop (`recv_all` then `fwrite`). -/
def recvChunksGo (sched : ℕ → ℕ) : ℕ → ℕ → ℕ → List ℕ → Option (List ℕ × List ℕ)
  | 0, _, remaining, stream => if remaining = 0 then some ([], stream) else none
  | fuel + 1, i, remaining, stream =>
    if remaining = 0 then some ([], stream)
    else
      if min remaining (sched i) = 0 then none
      else if stream.length < min remaining (sched i) then none
      else
        match recvChunksGo sched fuel (i + 1) (remaining - min remaining (sched i))
            (stream.drop (min remaining (sched i))) with
        | none => none
        | some (data, rest) => some (stream.take (min remaining (sched i)) ++ data, rest)

/-- The receiver's chunked content loop: the bytes written to the output file
and the unconsumed remainder of the stream.  `none` models the error paths
(peer closed mid-body). -/
def recvChunks (sched : ℕ → ℕ) (i remaining : ℕ) (stream : List ℕ) :
    Option (List ℕ × List ℕ) :=
  recvChunksGo sched remaining i remaining stream

theorem recvChunksGo_spec (sched : ℕ → ℕ) (h : ∀ j, 1 ≤ sched j) :
    ∀ fuel i remaining stream, remaining ≤ fuel → remaining ≤ stream.length →
      recvChunksGo sched fuel i remaining stream =
        some (stream.take remaining, stream.drop remaining) := by
  intro fuel
  induction fuel with
  | zero =>
    intro i remaining stream hf _
    interval_cases remaining
    simp [recvChunksGo]
  | succ n ih =>
    intro i remaining stream hf hs
    rcases Nat.eq_zero_or_pos remaining with hr | hr
    · subst hr; simp [recvChunksGo]
    · have hsched := h i
      have hk : 1 ≤ min remaining (sched i) := by omega
      have hkr : min remaining (sched i) ≤ remaining := Nat.min_le_left _ _
      rw [recvChunksGo, if_neg (by omega), if_neg (by omega), if_neg (by omega)]
      rw [ih (i + 1) (remaining - min remaining (sched i)) _ (by omega)
        (by simp only [List.length_drop]; omega)]
      dsimp only
      have hsplit : stream.take (min remaining (sched i)) ++
          (stream.drop (min remaining (sched i))).take
            (remaining - min remaining (sched i)) = stream.take remaining := by
        rw [← List.take_add]
        congr 1
        omega
      have hdrop : (stream.drop (min remaining (sched i))).drop
          (remaining - min remaining (sched i)) = stream.drop remaining := by
        rw [List.drop_drop]
        congr 1
        omega
      rw [hsplit, hdrop]

theorem recvChunks_spec (sched : ℕ → ℕ) (h : ∀ j, 1 ≤ sched j) (i remaining : ℕ)
    (stream : List ℕ) (hs : remaining ≤ stream.length) :
    recvChunks sched i remaining stream =
      some (stream.take remaining, stream.drop remaining) :=
  recvChunksGo_spec sched h remaining i remaining stream le_rfl hs

theorem recvChunks_append (sched : ℕ → ℕ) (h : ∀ j, 1 ≤ sched j) (i : ℕ)
    (content rest : List ℕ) :
    recvChunks sched i content.length (content ++ rest) = some (content, rest) := by
  rw [recvChunks_spec sched h i content.length (content ++ rest) (by simp),
    List.take_left, List.drop_left]

/-! ## Adaptive chunker (`adaptive.c`, `adaptive.h`) -/

/-- Constant `MIN_CHUNK_SIZE` (8 KiB). -/
def MIN_CHUNK_SIZE : ℕ := 8 * 1024

/-- Constant `MAX_CHUNK_SIZE` (2 MiB). -/
def MAX_CHUNK_SIZE : ℕ := 2 * 1024 * 1024

/-- Constant `INITIAL_CHUNK_SIZE` (64 KiB). -/
def INITIAL_CHUNK_SIZE : ℕ := 64 * 1024

/-- Constant `ADJUSTMENT_INTERVAL` in seconds. -/
def ADJUSTMENT_INTERVAL : ℤ := 2

/-- Constant `SPEED_SAMPLES`: length of the rolling sample ring. -/
def SPEED_SAMPLES : ℕ := 5

/-- The `AdaptiveState` struct.  `speed_samples` is kept as a 5-element list,
times are `ℤ` seconds, speeds are `ℚ` bytes per second. -/
structure AdaptiveState where
  current_chunk_size : ℕ
  last_adjustment_time : ℤ
  bytes_transferred : ℕ
  transfer_start_time : ℤ
  speed_samples : List ℚ
  sample_count : ℕ
  sample_index : ℕ
  total_bytes : ℕ
  bytes_sent_or_received : ℕ
deriving Repr, DecidableEq

/-- Model of `adaptive_init(state, total_bytes)` at wall-clock time `now`. -/
def adaptive_init (total_bytes : ℕ) (now : ℤ) : AdaptiveState where
  current_chunk_size := INITIAL_CHUNK_SIZE
  last_adjustment_time := now
  bytes_transferred := 0
  transfer_start_time := now
  speed_samples := List.replicate SPEED_SAMPLES 0
  sample_count := 0
  sample_index := 0
  total_bytes := total_bytes
  bytes_sent_or_received := 0

/-- The value returned by `adaptive_get_chunk_size` (which also clamps the
stored field into `[MIN, MAX]` before returning it). -/
def adaptive_get_chunk_size (state : AdaptiveState) : ℕ :=
  if state.current_chunk_size < MIN_CHUNK_SIZE then MIN_CHUNK_SIZE
  else if state.current_chunk_size > MAX_CHUNK_SIZE then MAX_CHUNK_SIZE
  else state.current_chunk_size

/-- The in-place clamp `adaptive_get_chunk_size` performs on the state. -/
def adaptive_get_chunk_size_state (state : AdaptiveState) : AdaptiveState :=
  { state with current_chunk_size := adaptive_get_chunk_size state }

/-- Model of `calculate_new_chunk_size(avg_speed)` with `MB = 1024.0 * 1024.0`. -/
def calculate_new_chunk_size (avg_speed : ℚ) : ℕ :=
  if avg_speed < 1 * 1048576 then MIN_CHUNK_SIZE
  else if avg_speed < 10 * 1048576 then 64 * 1024
  else if avg_speed < 50 * 1048576 then 256 * 1024
  else if avg_speed < 100 * 1048576 then 1 * 1024 * 1024
  else MAX_CHUNK_SIZE

/-- The average the adjustment step computes: the sum of the first
`sample_count` ring slots, divided by `sample_count` when it is positive. -/
def rollingAvg (state : AdaptiveState) : ℚ :=
  if state.sample_count = 0 then 0
  else (state.speed_samples.take state.sample_count).sum / state.sample_count

/-- Model of `adaptive_update(state, bytes_transferred, elapsed_time)` at wall-clock
time `now` (the `time(NULL)` the function reads). -/
def adaptive_update (state : AdaptiveState) (bytes : ℕ) (elapsed : ℚ)
    (now : ℤ) : AdaptiveState :=
  if elapsed ≤ 0 then state
  else
    let chunk_speed : ℚ := bytes / elapsed
    let st1 : AdaptiveState :=
      { state with
        speed_samples := state.speed_samples.set state.sample_index chunk_speed
        sample_index := (state.sample_index + 1) % SPEED_SAMPLES
        sample_count :=
          if state.sample_count < SPEED_SAMPLES then state.sample_count + 1
          else state.sample_count
        bytes_transferred := state.bytes_transferred + bytes
        bytes_sent_or_received := state.bytes_sent_or_received + bytes }
    if ADJUSTMENT_INTERVAL ≤ now - state.last_adjustment_time then
      { st1 with
        current_chunk_size := calculate_new_chunk_size (rollingAvg st1)
        last_adjustment_time := now
        bytes_transferred := 0 }
    else st1

/-- Model of `adaptive_reset(state)` at wall-clock time `now`: clears everything but
preserves `current_chunk_size`. -/
def adaptive_reset (state : AdaptiveState) (now : ℤ) : AdaptiveState where
  current_chunk_size := state.current_chunk_size
  last_adjustment_time := now
  bytes_transferred := 0
  transfer_start_time := now
  speed_samples := List.replicate SPEED_SAMPLES 0
  sample_count := 0
  sample_index := 0
  total_bytes := 0
  bytes_sent_or_received := 0

/-- One call against the adaptive layer, for quantifying over arbitrary call
sequences. -/
inductive AdaptiveOp where
  | init (total_bytes : ℕ) (now : ℤ)
  | update (bytes : ℕ) (elapsed : ℚ) (now : ℤ)
  | reset (now : ℤ)
  | get
deriving Repr

/-- Apply one adaptive-layer call to the state. -/
def applyAdaptiveOp (state : AdaptiveState) : AdaptiveOp → AdaptiveState
  | .init total_bytes now => adaptive_init total_bytes now
  | .update bytes elapsed now => adaptive_update state bytes elapsed now
  | .reset now => adaptive_reset state now
  | .get => adaptive_get_chunk_size_state state

/-- Run a sequence of adaptive-layer calls. -/
def runAdaptiveOps (ops : List AdaptiveOp) (state : AdaptiveState) : AdaptiveState :=
  ops.foldl applyAdaptiveOp state

theorem adaptive_get_chunk_size_bounds (state : AdaptiveState) :
    MIN_CHUNK_SIZE ≤ adaptive_get_chunk_size state ∧
      adaptive_get_chunk_size state ≤ MAX_CHUNK_SIZE := by
  unfold adaptive_get_chunk_size MIN_CHUNK_SIZE MAX_CHUNK_SIZE
  split
  · omega
  · split <;> omega

/-! ## Frame engine: magics, paths, filesystem effects -/

/-- Magic `FILE_MAGIC` ("FILE"). -/
def FILE_MAGIC : ℕ := 0x46494C45

/-- Magic `DIR_MAGIC` ("DIR "). -/
def DIR_MAGIC : ℕ := 0x44495220

/-- Magic `TARGET_FILE_MAGIC` ("TARG"). -/
def TARGET_FILE_MAGIC : ℕ := 0x54415247

/-- Magic `TARGET_DIR_MAGIC` ("TDIR"). -/
def TARGET_DIR_MAGIC : ℕ := 0x54444952

/-- Basename extraction via `strrchr(filepath, '/')` (the suffix after the
last slash, or the whole path when there is none).  47 is the byte of a
forward slash. -/
def basename (p : List ℕ) : List ℕ := (p.reverse.takeWhile (fun c => c != 47)).reverse

/-- Test `strstr(t, "..") != NULL`: 46 is the byte of a dot. -/
def hasDotDot : List ℕ → Bool
  | [] => false
  | [_] => false
  | a :: b :: rest => (a == 46 && b == 46) || hasDotDot (b :: rest)

/-- Sender-side sanitizer `validate_target_directory` (protocol.c).
Empty target is allowed as-is; a target containing `..` or starting with `/`
is rejected (`none`); otherwise further leading slashes are stripped.  The
buffer-length check (4096-byte buffer) is omitted: the embedding keeps
strings unbounded and the theorems below restrict themselves to inputs that
fit the C buffers. -/
def validate_target_directory (target_dir : List ℕ) : Option (List ℕ) :=
  if target_dir = [] then some []
  else if hasDotDot target_dir then none
  else if target_dir.head? = some 47 then none
  else some (target_dir.dropWhile (fun c => c == 47))

/-- A filesystem side effect the receiver performs: `create_directory_recursive`
on a path, or creating/truncating and writing an output file (`fopen` with
`"wb"` followed by the content writes). -/
inductive FsOp where
  | mkdirRec : List ℕ → FsOp
  | writeFile : List ℕ → List ℕ → FsOp
deriving Repr, DecidableEq

/-! ## Frame engine: senders

Each sender function is embedded as the byte stream it pushes through
`send_all`.  A source file is a pair of its path and its byte content; the
stat'd `file_size` is the content length.  Directory trees are abstracted as
the list of (relative path, content) pairs the recursive walk
`send_directory_recursive` visits, in walk order; `count_directory_files`
then yields the list length and total content size. -/

/-- Total size a directory walk reports (`count_directory_files`). -/
def totalSize (entries : List (List ℕ × List ℕ)) : ℕ :=
  (entries.map (fun e => e.2.length)).sum

/-- Stream of `send_file_protocol(s, filepath)` for a file with the given content:
FILE magic, 16-byte header, basename, then the chunked content. -/
def send_file_protocol_stream (sched : ℕ → ℕ) (filepath content : List ℕ) : List ℕ :=
  be32 FILE_MAGIC ++ be64 content.length ++ be64 (basename filepath).length ++
    basename filepath ++ sendChunks sched 0 content

/-- Stream of `send_single_file_in_dir(s, base_path, relative_path)`: the per-entry
frame inside a tree (16-byte header, relative path, chunked content). -/
def send_single_file_in_dir_stream (sched : ℕ → ℕ) (relative_path content : List ℕ) :
    List ℕ :=
  be64 content.length ++ be64 relative_path.length ++ relative_path ++
    sendChunks sched 0 content

/-- The pure per-entry frame (the chunk loop flattened away). -/
def entryWire (e : List ℕ × List ℕ) : List ℕ :=
  be64 e.2.length ++ be64 e.1.length ++ e.1 ++ e.2

/-- Stream of `send_directory_recursive`: the concatenation of the per-entry frames in
walk order. -/
def send_directory_recursive_stream (sched : ℕ → ℕ)
    (entries : List (List ℕ × List ℕ)) : List ℕ :=
  (entries.map (fun e => send_single_file_in_dir_stream sched e.1 e.2)).flatten

/-- Stream of `send_directory_protocol(s, dirpath)`: DIR magic, 24-byte directory
header, base name, the entry frames, then the zero/zero end marker. -/
def send_directory_protocol_stream (sched : ℕ → ℕ) (dirpath : List ℕ)
    (entries : List (List ℕ × List ℕ)) : List ℕ :=
  be32 DIR_MAGIC ++ be64 entries.length ++ be64 (totalSize entries) ++
    be64 (basename dirpath).length ++ basename dirpath ++
    send_directory_recursive_stream sched entries ++ be64 0 ++ be64 0

/-- Stream of `send_directory_with_target_protocol(s, dirpath, target_dir)`: validates
the target on the sender; on success emits TDIR magic, 32-byte header, base
name, sanitized target, then the entry frames — and no end marker. -/
def send_directory_with_target_protocol_stream (sched : ℕ → ℕ)
    (dirpath target_dir : List ℕ) (entries : List (List ℕ × List ℕ)) :
    Option (List ℕ) :=
  match validate_target_directory target_dir with
  | none => none
  | some st =>
    some (be32 TARGET_DIR_MAGIC ++ be64 entries.length ++ be64 (totalSize entries) ++
      be64 (basename dirpath).length ++ be64 st.length ++
      basename dirpath ++ st ++ send_directory_recursive_stream sched entries)

/-! ## Frame engine: receivers -/

/-- Model of `recv_file_protocol(s)` (after the magic was consumed by
`detect_transfer_type`): parses the 16-byte header, reads the filename, opens
the output file at exactly that name in the current directory (no
re-validation of any kind takes place) and receives the body.  Returns the
written (path, content) and the unconsumed stream. -/
def recv_file_protocol (sched : ℕ → ℕ) (stream : List ℕ) :
    Option ((List ℕ × List ℕ) × List ℕ) :=
  match readN 16 stream with
  | none => none
  | some (hdr, s1) =>
    match readN (readBe64 (hdr.drop 8)) s1 with
    | none => none
    | some (filename, s2) =>
      match recvChunks sched 0 (readBe64 (hdr.take 8)) s2 with
      | none => none
      | some (data, rest) => some ((filename, data), rest)

/-- Model of `recv_file_with_target_protocol(s)`: parses the 24-byte TARG header,
reads filename and target directory, calls `create_directory_recursive` on
the received target verbatim (again: no validation on the receiver), then
writes `target/filename` (or `filename` when no target).  Returns the
filesystem effects in order, and the unconsumed stream. -/
def recv_file_with_target_protocol (sched : ℕ → ℕ) (stream : List ℕ) :
    Option (List FsOp × List ℕ) :=
  match readN 24 stream with
  | none => none
  | some (hdr, s1) =>
    match readN (readBe64 ((hdr.drop 8).take 8)) s1 with
    | none => none
    | some (filename, s2) =>
      match readN (readBe64 (hdr.drop 16)) s2 with
      | none => none
      | some (target_dir, s3) =>
        match recvChunks sched 0 (readBe64 (hdr.take 8)) s3 with
        | none => none
        | some (data, rest) =>
          if 0 < target_dir.length then
            some ([FsOp.mkdirRec target_dir,
                   FsOp.writeFile (target_dir ++ [47] ++ filename) data], rest)
          else
            some ([FsOp.writeFile filename data], rest)

/-- Model of `receive_single_file_in_dir(s, base_dir)`: one tree entry.  A zero/zero
header is the end marker (`some (none, _)`, return value 1 in C); otherwise
the entry is written at `base_dir/relative_path` (intermediate directories
created as needed). -/
def receive_single_file_in_dir (sched : ℕ → ℕ) (base_dir stream : List ℕ) :
    Option (Option (List ℕ × List ℕ) × List ℕ) :=
  match readN 16 stream with
  | none => none
  | some (hdr, s1) =>
    if readBe64 (hdr.take 8) = 0 ∧ readBe64 (hdr.drop 8) = 0 then
      some (none, s1)
    else
      match readN (readBe64 (hdr.drop 8)) s1 with
      | none => none
      | some (relative_path, s2) =>
        match recvChunks sched 0 (readBe64 (hdr.take 8)) s2 with
        | none => none
        | some (data, rest) =>
          some (some (base_dir ++ [47] ++ relative_path, data), rest)

/-- The `while (1)` entry loop of `recv_directory_protocol`: receive entries
until the end marker; a C return value of `-1` anywhere aborts.  Structural
fuel stands in for the unbounded loop. -/
def recv_dir_loop (sched : ℕ → ℕ) : ℕ → List ℕ → List ℕ →
    Option (List (List ℕ × List ℕ) × List ℕ)
  | 0, _, _ => none
  | fuel + 1, base_dir, stream =>
    match receive_single_file_in_dir sched base_dir stream with
    | none => none
    | some (none, rest) => some ([], rest)
    | some (some e, rest) =>
      match recv_dir_loop sched fuel base_dir rest with
      | none => none
      | some (entries, rest2) => some (e :: entries, rest2)

/-- Model of `recv_directory_protocol(s)`: parses the 24-byte DIR header, reads the
base directory name, creates it, then runs the sentinel-terminated entry
loop.  (`total_files` and `total_size` are read but drive nothing here.)
Returns the created base, the received entries and the unconsumed stream. -/
def recv_directory_protocol (sched : ℕ → ℕ) (stream : List ℕ) :
    Option ((List ℕ × List (List ℕ × List ℕ)) × List ℕ) :=
  match readN 24 stream with
  | none => none
  | some (hdr, s1) =>
    match readN (readBe64 (hdr.drop 16)) s1 with
    | none => none
    | some (base_name, s2) =>
      match recv_dir_loop sched (s2.length + 1) base_name s2 with
      | none => none
      | some (entries, rest) => some ((base_name, entries), rest)

/-- The `while (files_received < total_files)` loop of
`recv_directory_with_target_protocol`: exactly `n` entries are consumed; any
nonzero return from `receive_single_file_in_dir` — including the value 1
produced by a zero/zero header — aborts the transfer. -/
def recv_tdir_loop (sched : ℕ → ℕ) : ℕ → List ℕ → List ℕ →
    Option (List (List ℕ × List ℕ) × List ℕ)
  | 0, _, stream => some ([], stream)
  | n + 1, base_dir, stream =>
    match receive_single_file_in_dir sched base_dir stream with
    | none => none
    | some (none, _) => none
    | some (some e, rest) =>
      match recv_tdir_loop sched n base_dir rest with
      | none => none
      | some (entries, rest2) => some (e :: entries, rest2)

/-- Model of `recv_directory_with_target_protocol(s)`: parses the 32-byte TDIR header,
reads base name and target, creates the received target verbatim (no
validation), creates `target/base` (or `base`), then consumes exactly
`total_files` entries.  Returns the directory-creation effects, the received
entries and the unconsumed stream. -/
def recv_directory_with_target_protocol (sched : ℕ → ℕ) (stream : List ℕ) :
    Option ((List FsOp × List (List ℕ × List ℕ)) × List ℕ) :=
  match readN 32 stream with
  | none => none
  | some (hdr, s1) =>
    match readN (readBe64 ((hdr.drop 16).take 8)) s1 with
    | none => none
    | some (base_dir, s2) =>
      match readN (readBe64 (hdr.drop 24)) s2 with
      | none => none
      | some (target_dir, s3) =>
        let full_target : List ℕ :=
          if 0 < target_dir.length then target_dir ++ [47] ++ base_dir else base_dir
        let preOps : List FsOp :=
          if 0 < target_dir.length then [FsOp.mkdirRec target_dir] else []
        match recv_tdir_loop sched (readBe64 (hdr.take 8)) full_target s3 with
        | none => none
        | some (entries, rest) =>
          some ((preOps ++ [FsOp.mkdirRec full_target], entries), rest)

/-! ## Frame engine: magic dispatch (`detect_transfer_type`, `receive_file`) -/

/-- Model of `detect_transfer_type(s)`: reads exactly 4 bytes and classifies them.
`none` is a `recv_all` failure; the C function collapses that case and an
unknown magic into the same return value `-1`, but only the latter has
consumed the 4 bytes. -/
def detect_transfer_type (stream : List ℕ) : Option (ℤ × List ℕ) :=
  match readN 4 stream with
  | none => none
  | some (m, rest) =>
    if readBe32 m = FILE_MAGIC then some (0, rest)
    else if readBe32 m = DIR_MAGIC then some (1, rest)
    else if readBe32 m = TARGET_FILE_MAGIC then some (2, rest)
    else if readBe32 m = TARGET_DIR_MAGIC then some (3, rest)
    else some (-1, rest)

/-- Outcome of one `receive_file` connection iteration: which handler the
magic dispatched to, carrying that handler's result verbatim. -/
inductive RxResult where
  | detectFailed : RxResult
  | unknown (rest : List ℕ) : RxResult
  | file (r : Option ((List ℕ × List ℕ) × List ℕ)) : RxResult
  | dir (r : Option ((List ℕ × List (List ℕ × List ℕ)) × List ℕ)) : RxResult
  | targ (r : Option (List FsOp × List ℕ)) : RxResult
  | tdir (r : Option ((List FsOp × List (List ℕ × List ℕ)) × List ℕ)) : RxResult
deriving DecidableEq

/-- The dispatch performed by `receive_file` (server.c) on one connection:
read the magic with `detect_transfer_type`, then hand the remainder of the
stream to the selected protocol handler.  An unrecognized magic reaches no
handler — the server only prints an error and closes the connection. -/
def receive_file_model (sched : ℕ → ℕ) (stream : List ℕ) : RxResult :=
  match detect_transfer_type stream with
  | none => .detectFailed
  | some (t, rest) =>
    if t = 0 then .file (recv_file_protocol sched rest)
    else if t = 1 then .dir (recv_directory_protocol sched rest)
    else if t = 2 then .targ (recv_file_with_target_protocol sched rest)
    else if t = 3 then .tdir (recv_directory_with_target_protocol sched rest)
    else .unknown rest

/-- Per-entry write effects of a completed tree transfer. -/
def entryWrites (entries : List (List ℕ × List ℕ)) : List FsOp :=
  entries.map (fun e => FsOp.writeFile e.1 e.2)

/-- Filesystem side effects of a completed `receive_file` iteration (a
handler that failed or never ran contributes the effects it reached; for the
unknown-magic and detect-failure outcomes no handler ran at all, so there are
none). -/
def rxEffects : RxResult → List FsOp
  | .detectFailed => []
  | .unknown _ => []
  | .file none => []
  | .file (some ((p, c), _)) => [FsOp.writeFile p c]
  | .dir none => []
  | .dir (some ((base, entries), _)) => FsOp.mkdirRec base :: entryWrites entries
  | .targ none => []
  | .targ (some (ops, _)) => ops
  | .tdir none => []
  | .tdir (some ((ops, entries), _)) => ops ++ entryWrites entries

/-! ## Parsing lemmas: each receiver applied to the matching sender stream -/

theorem be64_append_length (a b : ℕ) : (be64 a ++ be64 b).length = 16 := by
  simp [be64_length]

theorem recv_file_protocol_spec (sched : ℕ → ℕ) (h : ∀ j, 1 ≤ sched j)
    (name content rest : List ℕ) (hn : name.length < 2 ^ 64)
    (hc : content.length < 2 ^ 64) :
    recv_file_protocol sched
      (be64 content.length ++ (be64 name.length ++ (name ++ (content ++ rest)))) =
      some ((name, content), rest) := by
  have e1 : be64 content.length ++ (be64 name.length ++ (name ++ (content ++ rest)))
      = (be64 content.length ++ be64 name.length) ++ (name ++ (content ++ rest)) := by
    simp [List.append_assoc]
  have h1 : readN 16 (be64 content.length ++ (be64 name.length ++ (name ++ (content ++ rest))))
      = some (be64 content.length ++ be64 name.length, name ++ (content ++ rest)) := by
    rw [e1]; exact readN_append_of_len 16 _ _ (be64_append_length _ _)
  have h2 : (be64 content.length ++ be64 name.length).drop 8 = be64 name.length :=
    List.drop_left' (be64_length _)
  have h3 : (be64 content.length ++ be64 name.length).take 8 = be64 content.length :=
    List.take_left' (be64_length _)
  have h4 : readN name.length (name ++ (content ++ rest)) = some (name, content ++ rest) :=
    readN_append name (content ++ rest)
  simp only [recv_file_protocol, h1, h2, h3, readBe64_be64 _ hn, readBe64_be64 _ hc, h4,
    recvChunks_append sched h 0 content rest]

theorem receive_single_file_in_dir_sentinel (sched : ℕ → ℕ) (base_dir rest : List ℕ) :
    receive_single_file_in_dir sched base_dir (be64 0 ++ (be64 0 ++ rest)) =
      some (none, rest) := by
  have e1 : be64 0 ++ (be64 0 ++ rest) = (be64 0 ++ be64 0) ++ rest := by
    simp [List.append_assoc]
  have h1 : readN 16 (be64 0 ++ (be64 0 ++ rest)) = some (be64 0 ++ be64 0, rest) := by
    rw [e1]; exact readN_append_of_len 16 _ _ (be64_append_length _ _)
  have h2 : (be64 0 ++ be64 0).drop 8 = be64 0 := List.drop_left' (be64_length _)
  have h3 : (be64 0 ++ be64 0).take 8 = be64 0 := List.take_left' (be64_length _)
  have h0 : readBe64 (be64 0) = 0 := readBe64_be64 0 (by norm_num)
  simp only [receive_single_file_in_dir, h1, h2, h3, h0, and_self, if_pos]

theorem receive_single_file_in_dir_spec (sched : ℕ → ℕ) (h : ∀ j, 1 ≤ sched j)
    (base_dir relative_path content rest : List ℕ) (hne : relative_path ≠ [])
    (hr : relative_path.length < 2 ^ 64) (hc : content.length < 2 ^ 64) :
    receive_single_file_in_dir sched base_dir
      (be64 content.length ++ (be64 relative_path.length ++
        (relative_path ++ (content ++ rest)))) =
      some (some (base_dir ++ [47] ++ relative_path, content), rest) := by
  have e1 : be64 content.length ++ (be64 relative_path.length ++
        (relative_path ++ (content ++ rest)))
      = (be64 content.length ++ be64 relative_path.length) ++
        (relative_path ++ (content ++ rest)) := by
    simp [List.append_assoc]
  have h1 : readN 16 (be64 content.length ++ (be64 relative_path.length ++
        (relative_path ++ (content ++ rest))))
      = some (be64 content.length ++ be64 relative_path.length,
          relative_path ++ (content ++ rest)) := by
    rw [e1]; exact readN_append_of_len 16 _ _ (be64_append_length _ _)
  have h2 : (be64 content.length ++ be64 relative_path.length).drop 8 =
      be64 relative_path.length := List.drop_left' (be64_length _)
  have h3 : (be64 content.length ++ be64 relative_path.length).take 8 =
      be64 content.length := List.take_left' (be64_length _)
  have h4 : readN relative_path.length (relative_path ++ (content ++ rest)) =
      some (relative_path, content ++ rest) := readN_append _ _
  have hnz : ¬(content.length = 0 ∧ relative_path.length = 0) := by
    intro hz
    exact hne (List.length_eq_zero.mp hz.2)
  simp only [receive_single_file_in_dir, h1, h2, h3, readBe64_be64 _ hr,
    readBe64_be64 _ hc, if_neg hnz, h4, recvChunks_append sched h 0 content rest]

/-- The per-entry frames of a tree, flattened (the chunk loops of
`send_directory_recursive` already collapsed by `sendChunks_eq`). -/
def entriesWire (entries : List (List ℕ × List ℕ)) : List ℕ :=
  (entries.map entryWire).flatten

theorem send_directory_recursive_stream_eq (sched : ℕ → ℕ) (h : ∀ j, 1 ≤ sched j)
    (entries : List (List ℕ × List ℕ)) :
    send_directory_recursive_stream sched entries = entriesWire entries := by
  unfold send_directory_recursive_stream entriesWire
  congr 1
  simp [send_single_file_in_dir_stream, entryWire, sendChunks_eq sched h]

theorem entriesWire_length (entries : List (List ℕ × List ℕ)) :
    entries.length ≤ (entriesWire entries).length := by
  induction entries with
  | nil => simp [entriesWire]
  | cons e tl ih =>
    simp only [entriesWire, List.map_cons, List.flatten_cons, List.length_append,
      List.length_cons] at *
    have : 1 ≤ (entryWire e).length := by
      simp only [entryWire, List.length_append, be64_length]
      omega
    omega

/-- Well-formedness of a walked tree: every relative path nonempty (the walk
builds them from nonempty `d_name`s) and all lengths within `uint64_t`. -/
def entriesWf (entries : List (List ℕ × List ℕ)) : Prop :=
  ∀ e ∈ entries, e.1 ≠ [] ∧ e.1.length < 2 ^ 64 ∧ e.2.length < 2 ^ 64

theorem recv_dir_loop_spec (sched : ℕ → ℕ) (h : ∀ j, 1 ≤ sched j) :
    ∀ (entries : List (List ℕ × List ℕ)) (fuel : ℕ) (base_dir rest : List ℕ),
      entries.length < fuel → entriesWf entries →
      recv_dir_loop sched fuel base_dir
          (entriesWire entries ++ (be64 0 ++ (be64 0 ++ rest))) =
        some (entries.map (fun e => (base_dir ++ [47] ++ e.1, e.2)), rest) := by
  intro entries
  induction entries with
  | nil =>
    intro fuel base_dir rest hfuel _
    rcases fuel with _ | f
    · omega
    · simp only [entriesWire, List.map_nil, List.flatten_nil, List.nil_append,
        recv_dir_loop, receive_single_file_in_dir_sentinel]
  | cons e tl ih =>
    intro fuel base_dir rest hfuel hwf
    rcases fuel with _ | f
    · omega
    · have hwfe := hwf e (by simp)
      have hstream : entriesWire (e :: tl) ++ (be64 0 ++ (be64 0 ++ rest))
          = be64 e.2.length ++ (be64 e.1.length ++ (e.1 ++ (e.2 ++
              (entriesWire tl ++ (be64 0 ++ (be64 0 ++ rest)))))) := by
        simp [entriesWire, entryWire, List.append_assoc]
      rw [recv_dir_loop, hstream,
        receive_single_file_in_dir_spec sched h base_dir e.1 e.2 _
          hwfe.1 hwfe.2.1 hwfe.2.2]
      dsimp only
      rw [ih f base_dir rest (by simpa using hfuel)
          (fun x hx => hwf x (List.mem_cons_of_mem e hx))]
      simp

theorem recv_tdir_loop_spec (sched : ℕ → ℕ) (h : ∀ j, 1 ≤ sched j) :
    ∀ (entries : List (List ℕ × List ℕ)) (base_dir rest : List ℕ),
      entriesWf entries →
      recv_tdir_loop sched entries.length base_dir (entriesWire entries ++ rest) =
        some (entries.map (fun e => (base_dir ++ [47] ++ e.1, e.2)), rest) := by
  intro entries
  induction entries with
  | nil =>
    intro base_dir rest _
    simp [entriesWire, recv_tdir_loop]
  | cons e tl ih =>
    intro base_dir rest hwf
    have hwfe := hwf e (by simp)
    have hstream : entriesWire (e :: tl) ++ rest
        = be64 e.2.length ++ (be64 e.1.length ++ (e.1 ++ (e.2 ++
            (entriesWire tl ++ rest)))) := by
      simp [entriesWire, entryWire, List.append_assoc]
    rw [List.length_cons, recv_tdir_loop, hstream,
      receive_single_file_in_dir_spec sched h base_dir e.1 e.2 _
        hwfe.1 hwfe.2.1 hwfe.2.2]
    dsimp only
    rw [ih base_dir rest (fun x hx => hwf x (List.mem_cons_of_mem e hx))]
    simp

theorem recv_directory_protocol_spec (sched : ℕ → ℕ) (h : ∀ j, 1 ≤ sched j)
    (nf ts : ℕ) (base : List ℕ) (entries : List (List ℕ × List ℕ)) (rest : List ℕ)
    (hb : base.length < 2 ^ 64) (hwf : entriesWf entries) :
    recv_directory_protocol sched
      (be64 nf ++ (be64 ts ++ (be64 base.length ++ (base ++
        (entriesWire entries ++ (be64 0 ++ (be64 0 ++ rest))))))) =
      some ((base, entries.map (fun e => (base ++ [47] ++ e.1, e.2))), rest) := by
  set tail := entriesWire entries ++ (be64 0 ++ (be64 0 ++ rest)) with htail
  have e1 : be64 nf ++ (be64 ts ++ (be64 base.length ++ (base ++ tail)))
      = ((be64 nf ++ be64 ts) ++ be64 base.length) ++ (base ++ tail) := by
    simp [List.append_assoc]
  have h1 : readN 24 (be64 nf ++ (be64 ts ++ (be64 base.length ++ (base ++ tail))))
      = some ((be64 nf ++ be64 ts) ++ be64 base.length, base ++ tail) := by
    rw [e1]
    exact readN_append_of_len 24 _ _ (by simp [be64_length])
  have h2 : (((be64 nf ++ be64 ts) ++ be64 base.length)).drop 16 = be64 base.length :=
    List.drop_left' (be64_append_length _ _)
  have h3 : readN base.length (base ++ tail) = some (base, tail) := readN_append _ _
  have hfuel : entries.length < tail.length + 1 := by
    have := entriesWire_length entries
    simp only [htail, List.length_append]
    omega
  have hloop : recv_dir_loop sched (tail.length + 1) base tail
      = some (entries.map (fun e => (base ++ [47] ++ e.1, e.2)), rest) := by
    rw [htail]
    exact recv_dir_loop_spec sched h entries (tail.length + 1) base rest hfuel hwf
  simp only [recv_directory_protocol, h1, h2, readBe64_be64 _ hb, h3, hloop]

theorem recv_tdir_loop_abort (sched : ℕ → ℕ) (h : ∀ j, 1 ≤ sched j) :
    ∀ (entries : List (List ℕ × List ℕ)) (n : ℕ) (base_dir tail : List ℕ),
      entries.length < n → entriesWf entries →
      recv_tdir_loop sched n base_dir
          (entriesWire entries ++ (be64 0 ++ (be64 0 ++ tail))) = none := by
  intro entries
  induction entries with
  | nil =>
    intro n base_dir tail hn _
    rcases n with _ | m
    · omega
    · simp only [entriesWire, List.map_nil, List.flatten_nil, List.nil_append,
        recv_tdir_loop, receive_single_file_in_dir_sentinel]
  | cons e tl ih =>
    intro n base_dir tail hn hwf
    rcases n with _ | m
    · omega
    · have hwfe := hwf e (by simp)
      have hstream : entriesWire (e :: tl) ++ (be64 0 ++ (be64 0 ++ tail))
          = be64 e.2.length ++ (be64 e.1.length ++ (e.1 ++ (e.2 ++
              (entriesWire tl ++ (be64 0 ++ (be64 0 ++ tail)))))) := by
        simp [entriesWire, entryWire, List.append_assoc]
      rw [recv_tdir_loop, hstream,
        receive_single_file_in_dir_spec sched h base_dir e.1 e.2 _
          hwfe.1 hwfe.2.1 hwfe.2.2]
      dsimp only
      rw [ih m base_dir tail (by simpa using hn)
        (fun x hx => hwf x (List.mem_cons_of_mem e hx))]

theorem recv_directory_with_target_protocol_spec (sched : ℕ → ℕ)
    (h : ∀ j, 1 ≤ sched j) (ts : ℕ) (base st : List ℕ)
    (entries : List (List ℕ × List ℕ)) (rest : List ℕ)
    (hb : base.length < 2 ^ 64) (hst : st.length < 2 ^ 64)
    (hn : entries.length < 2 ^ 64) (hwf : entriesWf entries) :
    recv_directory_with_target_protocol sched
      (be64 entries.length ++ (be64 ts ++ (be64 base.length ++ (be64 st.length ++
        (base ++ (st ++ (entriesWire entries ++ rest))))))) =
      some (((if 0 < st.length then [FsOp.mkdirRec st] else []) ++
          [FsOp.mkdirRec (if 0 < st.length then st ++ [47] ++ base else base)],
        entries.map (fun e =>
          ((if 0 < st.length then st ++ [47] ++ base else base) ++ [47] ++ e.1, e.2))),
        rest) := by
  set tail := entriesWire entries ++ rest with htail
  set hdr := be64 entries.length ++ (be64 ts ++ (be64 base.length ++ be64 st.length))
    with hhdr
  have e1 : be64 entries.length ++ (be64 ts ++ (be64 base.length ++ (be64 st.length ++
        (base ++ (st ++ tail))))) = hdr ++ (base ++ (st ++ tail)) := by
    simp [hhdr, List.append_assoc]
  have h1 : readN 32 (be64 entries.length ++ (be64 ts ++ (be64 base.length ++
        (be64 st.length ++ (base ++ (st ++ tail))))))
      = some (hdr, base ++ (st ++ tail)) := by
    rw [e1]
    exact readN_append_of_len 32 _ _ (by simp [hhdr, be64_length])
  have h2 : (hdr.drop 16).take 8 = be64 base.length := by
    have e2 : hdr = (be64 entries.length ++ be64 ts) ++
        (be64 base.length ++ be64 st.length) := by
      simp [hhdr, List.append_assoc]
    rw [e2, List.drop_left' (be64_append_length _ _), List.take_left' (be64_length _)]
  have h3 : hdr.drop 24 = be64 st.length := by
    have e3 : hdr = (be64 entries.length ++ (be64 ts ++ be64 base.length)) ++
        be64 st.length := by
      simp [hhdr, List.append_assoc]
    rw [e3, List.drop_left' (by simp [be64_length])]
  have h4 : hdr.take 8 = be64 entries.length := by
    rw [hhdr, List.take_left' (be64_length _)]
  have h5 : readN base.length (base ++ (st ++ tail)) = some (base, st ++ tail) :=
    readN_append _ _
  have h6 : readN st.length (st ++ tail) = some (st, tail) := readN_append _ _
  have hloop : recv_tdir_loop sched entries.length
      (if 0 < st.length then st ++ [47] ++ base else base) tail
      = some (entries.map (fun e =>
          ((if 0 < st.length then st ++ [47] ++ base else base) ++ [47] ++ e.1, e.2)),
        rest) := by
    rw [htail]
    exact recv_tdir_loop_spec sched h entries _ rest hwf
  simp only [recv_directory_with_target_protocol, h1, h2, h3, h4,
    readBe64_be64 _ hb, readBe64_be64 _ hst, readBe64_be64 _ hn, h5, h6, hloop]

/-! ## Dispatch lemmas and nil-tail corollaries -/

theorem detect_magic (m : ℕ) (hm : m < 2 ^ 32) (r : List ℕ) :
    detect_transfer_type (be32 m ++ r) =
      some ((if m = FILE_MAGIC then 0 else if m = DIR_MAGIC then 1
        else if m = TARGET_FILE_MAGIC then 2
        else if m = TARGET_DIR_MAGIC then 3 else -1), r) := by
  simp only [detect_transfer_type, readN_append_of_len 4 _ _ (be32_length m),
    readBe32_be32 m hm]
  split_ifs <;> rfl

theorem receive_file_model_file (sched : ℕ → ℕ) (stream : List ℕ)
    (h4 : 4 ≤ stream.length) (hm : readBe32 (stream.take 4) = FILE_MAGIC) :
    receive_file_model sched stream =
      RxResult.file (recv_file_protocol sched (stream.drop 4)) := by
  have hr : readN 4 stream = some (stream.take 4, stream.drop 4) := by
    unfold readN
    rw [if_neg (by omega)]
  unfold receive_file_model detect_transfer_type
  rw [hr]
  dsimp only
  rw [hm, if_pos rfl]
  dsimp only
  rw [if_pos rfl]

theorem receive_file_model_dir (sched : ℕ → ℕ) (stream : List ℕ)
    (h4 : 4 ≤ stream.length) (hm : readBe32 (stream.take 4) = DIR_MAGIC) :
    receive_file_model sched stream =
      RxResult.dir (recv_directory_protocol sched (stream.drop 4)) := by
  have hr : readN 4 stream = some (stream.take 4, stream.drop 4) := by
    unfold readN
    rw [if_neg (by omega)]
  unfold receive_file_model detect_transfer_type
  rw [hr]
  dsimp only
  rw [hm, if_neg (by norm_num [DIR_MAGIC, FILE_MAGIC]), if_pos rfl]
  dsimp only
  rw [if_neg (by norm_num), if_pos rfl]


theorem recv_file_protocol_spec_nil (sched : ℕ → ℕ) (h : ∀ j, 1 ≤ sched j)
    (name content : List ℕ) (hn : name.length < 2 ^ 64)
    (hc : content.length < 2 ^ 64) :
    recv_file_protocol sched
      (be64 content.length ++ (be64 name.length ++ (name ++ content))) =
      some ((name, content), []) := by
  have := recv_file_protocol_spec sched h name content [] hn hc
  simpa using this

theorem recv_directory_protocol_spec_nil (sched : ℕ → ℕ) (h : ∀ j, 1 ≤ sched j)
    (nf ts : ℕ) (base : List ℕ) (entries : List (List ℕ × List ℕ))
    (hb : base.length < 2 ^ 64) (hwf : entriesWf entries) :
    recv_directory_protocol sched
      (be64 nf ++ (be64 ts ++ (be64 base.length ++ (base ++
        (entriesWire entries ++ (be64 0 ++ be64 0)))))) =
      some ((base, entries.map (fun e => (base ++ [47] ++ e.1, e.2))), []) := by
  have := recv_directory_protocol_spec sched h nf ts base entries [] hb hwf
  simpa using this

/-! ## Adaptive helper lemmas -/

theorem replicate_set_self (n i : ℕ) (a : ℚ) :
    (List.replicate n a).set i a = List.replicate n a := by
  induction n generalizing i with
  | zero => rfl
  | succ m ih =>
    rcases i with _ | j
    · simp [List.replicate_succ]
    · simp [List.replicate_succ, ih]

theorem rollingAvg_replicate (st : AdaptiveState) (v : ℚ)
    (hs : st.speed_samples = List.replicate SPEED_SAMPLES v)
    (h1 : 1 ≤ st.sample_count) (h5 : st.sample_count ≤ SPEED_SAMPLES) :
    rollingAvg st = v := by
  rw [rollingAvg, if_neg (by omega), hs, List.take_replicate]
  have hmin : min st.sample_count SPEED_SAMPLES = st.sample_count := by omega
  rw [hmin, List.sum_replicate, nsmul_eq_mul,
    mul_div_cancel_left₀ _ ((Nat.cast_ne_zero (R := ℚ)).mpr (by omega))]

/-! ## Claim theorems -/

theorem bswap32_digits (c0 c1 c2 c3 : ℕ) (h0 : c0 < 256) (h1 : c1 < 256)
    (h2 : c2 < 256) (h3 : c3 < 256) :
    bswap32 (c0 + 256 * c1 + 65536 * c2 + 16777216 * c3) =
      c3 + 256 * c2 + 65536 * c1 + 16777216 * c0 := by
  simp only [bswap32, byteAt]
  omega

theorem digits64_byteAt (c0 c1 c2 c3 c4 c5 c6 c7 : ℕ) (h0 : c0 < 256)
    (h1 : c1 < 256) (h2 : c2 < 256) (h3 : c3 < 256) (h4 : c4 < 256)
    (h5 : c5 < 256) (h6 : c6 < 256) (h7 : c7 < 256) :
    byteAt (c0 + 256 * c1 + 65536 * c2 + 16777216 * c3 + 4294967296 * c4 +
      1099511627776 * c5 + 281474976710656 * c6 + 72057594037927936 * c7) 0 = c0 ∧
    byteAt (c0 + 256 * c1 + 65536 * c2 + 16777216 * c3 + 4294967296 * c4 +
      1099511627776 * c5 + 281474976710656 * c6 + 72057594037927936 * c7) 1 = c1 ∧
    byteAt (c0 + 256 * c1 + 65536 * c2 + 16777216 * c3 + 4294967296 * c4 +
      1099511627776 * c5 + 281474976710656 * c6 + 72057594037927936 * c7) 2 = c2 ∧
    byteAt (c0 + 256 * c1 + 65536 * c2 + 16777216 * c3 + 4294967296 * c4 +
      1099511627776 * c5 + 281474976710656 * c6 + 72057594037927936 * c7) 3 = c3 ∧
    byteAt (c0 + 256 * c1 + 65536 * c2 + 16777216 * c3 + 4294967296 * c4 +
      1099511627776 * c5 + 281474976710656 * c6 + 72057594037927936 * c7) 4 = c4 ∧
    byteAt (c0 + 256 * c1 + 65536 * c2 + 16777216 * c3 + 4294967296 * c4 +
      1099511627776 * c5 + 281474976710656 * c6 + 72057594037927936 * c7) 5 = c5 ∧
    byteAt (c0 + 256 * c1 + 65536 * c2 + 16777216 * c3 + 4294967296 * c4 +
      1099511627776 * c5 + 281474976710656 * c6 + 72057594037927936 * c7) 6 = c6 ∧
    byteAt (c0 + 256 * c1 + 65536 * c2 + 16777216 * c3 + 4294967296 * c4 +
      1099511627776 * c5 + 281474976710656 * c6 + 72057594037927936 * c7) 7 = c7 := by
  refine ⟨?_, ?_, ?_, ?_, ?_, ?_, ?_, ?_⟩ <;> (simp only [byteAt]; omega)

/-- Claim C9: for every 64-bit value `v`, on a little-endian host and on a
big-endian host alike, `htonll(v)` lays the same big-endian byte sequence
out in memory (so a captured header shows the field byte-reversed relative
to the little-endian host order), and `ntohll(htonll(v)) = v`. -/
theorem claim_C9_endian_codec (v : ℕ) (h : v < 2 ^ 64) :
    storeLe64 (htonll_le v) = be64 v ∧
    storeBe64 (htonll_be v) = be64 v ∧
    storeLe64 v = (be64 v).reverse ∧
    ntohll_le (htonll_le v) = v ∧
    ntohll_be (htonll_be v) = v := by
  obtain ⟨b0, b1, b2, b3, b4, b5, b6, b7, hb, hv⟩ :
      ∃ b0 b1 b2 b3 b4 b5 b6 b7,
        (b0 < 256 ∧ b1 < 256 ∧ b2 < 256 ∧ b3 < 256 ∧ b4 < 256 ∧ b5 < 256 ∧
          b6 < 256 ∧ b7 < 256) ∧
        v = b0 + 256 * b1 + 65536 * b2 + 16777216 * b3 + 4294967296 * b4 +
          1099511627776 * b5 + 281474976710656 * b6 + 72057594037927936 * b7 := by
    refine ⟨byteAt v 0, byteAt v 1, byteAt v 2, byteAt v 3, byteAt v 4, byteAt v 5,
      byteAt v 6, byteAt v 7, ?_, ?_⟩ <;> simp only [byteAt] <;> omega
  obtain ⟨hb0, hb1, hb2, hb3, hb4, hb5, hb6, hb7⟩ := hb
  subst hv
  have hlow : (b0 + 256 * b1 + 65536 * b2 + 16777216 * b3 + 4294967296 * b4 +
      1099511627776 * b5 + 281474976710656 * b6 + 72057594037927936 * b7) % 2 ^ 32 =
      b0 + 256 * b1 + 65536 * b2 + 16777216 * b3 := by omega
  have hhigh : (b0 + 256 * b1 + 65536 * b2 + 16777216 * b3 + 4294967296 * b4 +
      1099511627776 * b5 + 281474976710656 * b6 + 72057594037927936 * b7) / 2 ^ 32 %
      2 ^ 32 = b4 + 256 * b5 + 65536 * b6 + 16777216 * b7 := by omega
  have hH : htonll_le (b0 + 256 * b1 + 65536 * b2 + 16777216 * b3 + 4294967296 * b4 +
      1099511627776 * b5 + 281474976710656 * b6 + 72057594037927936 * b7) =
      b7 + 256 * b6 + 65536 * b5 + 16777216 * b4 + 4294967296 * b3 +
        1099511627776 * b2 + 281474976710656 * b1 + 72057594037927936 * b0 := by
    rw [htonll_le, hlow, hhigh, bswap32_digits b0 b1 b2 b3 hb0 hb1 hb2 hb3,
      bswap32_digits b4 b5 b6 b7 hb4 hb5 hb6 hb7]
    ring
  have hD1 := digits64_byteAt b0 b1 b2 b3 b4 b5 b6 b7 hb0 hb1 hb2 hb3 hb4 hb5 hb6 hb7
  have hD2 := digits64_byteAt b7 b6 b5 b4 b3 b2 b1 b0 hb7 hb6 hb5 hb4 hb3 hb2 hb1 hb0
  refine ⟨?_, rfl, by rfl, ?_, rfl⟩
  · rw [storeLe64, be64, storeBe64, hH]
    rw [hD2.1, hD2.2.1, hD2.2.2.1, hD2.2.2.2.1, hD2.2.2.2.2.1, hD2.2.2.2.2.2.1,
      hD2.2.2.2.2.2.2.1, hD2.2.2.2.2.2.2.2,
      hD1.1, hD1.2.1, hD1.2.2.1, hD1.2.2.2.1, hD1.2.2.2.2.1, hD1.2.2.2.2.2.1,
      hD1.2.2.2.2.2.2.1, hD1.2.2.2.2.2.2.2]
  · rw [show ntohll_le = htonll_le from rfl, hH]
    have hlow2 : (b7 + 256 * b6 + 65536 * b5 + 16777216 * b4 + 4294967296 * b3 +
        1099511627776 * b2 + 281474976710656 * b1 + 72057594037927936 * b0) % 2 ^ 32 =
        b7 + 256 * b6 + 65536 * b5 + 16777216 * b4 := by omega
    have hhigh2 : (b7 + 256 * b6 + 65536 * b5 + 16777216 * b4 + 4294967296 * b3 +
        1099511627776 * b2 + 281474976710656 * b1 + 72057594037927936 * b0) / 2 ^ 32 %
        2 ^ 32 = b3 + 256 * b2 + 65536 * b1 + 16777216 * b0 := by omega
    rw [htonll_le, hlow2, hhigh2, bswap32_digits b7 b6 b5 b4 hb7 hb6 hb5 hb4,
      bswap32_digits b3 b2 b1 b0 hb3 hb2 hb1 hb0]
    ring

/-- Witness for C9 at the concrete value `0x0123456789ABCDEF`. -/
theorem claim_C9_witness :
    storeLe64 (htonll_le 81985529216486895) = be64 81985529216486895 ∧
    storeBe64 (htonll_be 81985529216486895) = be64 81985529216486895 ∧
    storeLe64 81985529216486895 = (be64 81985529216486895).reverse ∧
    ntohll_le (htonll_le 81985529216486895) = 81985529216486895 ∧
    ntohll_be (htonll_be 81985529216486895) = 81985529216486895 :=
  claim_C9_endian_codec 81985529216486895 (by norm_num)

/-- Claim C5: over any sequence of `adaptive_init` / `adaptive_update` /
`adaptive_reset` / `adaptive_get_chunk_size` calls from any starting state,
the chunk size `adaptive_get_chunk_size` returns is always in
`[MIN_CHUNK_SIZE, MAX_CHUNK_SIZE]` (the getter clamps defensively before
returning). -/
theorem claim_C5_adaptive_clamped (ops : List AdaptiveOp) (st : AdaptiveState) :
    MIN_CHUNK_SIZE ≤ adaptive_get_chunk_size (runAdaptiveOps ops st) ∧
      adaptive_get_chunk_size (runAdaptiveOps ops st) ≤ MAX_CHUNK_SIZE :=
  adaptive_get_chunk_size_bounds (runAdaptiveOps ops st)

/-- Claim C4 (amended): whenever an adjustment fires (at least
`ADJUSTMENT_INTERVAL` seconds since the last one), the new
`current_chunk_size` equals the tier-table value for the rolling average `v`
of the filled samples; the tiers are inclusive-lower/exclusive-upper, so a
`v` equal to a boundary (1, 10, 50 or 100 MB/s) falls into the UPPER tier
(the tier of which it is the inclusive lower endpoint); and further updates
at the same sustained rate leave the chunk size unchanged. -/
theorem claim_C4_adaptive_tiers :
    (∀ (st : AdaptiveState) (bytes : ℕ) (elapsed : ℚ) (now : ℤ),
      0 < elapsed → ADJUSTMENT_INTERVAL ≤ now - st.last_adjustment_time →
      (adaptive_update st bytes elapsed now).current_chunk_size =
        calculate_new_chunk_size (rollingAvg (adaptive_update st bytes elapsed now))) ∧
    (∀ v : ℚ,
      (v < 1048576 → calculate_new_chunk_size v = MIN_CHUNK_SIZE) ∧
      (1048576 ≤ v → v < 10485760 → calculate_new_chunk_size v = 64 * 1024) ∧
      (10485760 ≤ v → v < 52428800 → calculate_new_chunk_size v = 256 * 1024) ∧
      (52428800 ≤ v → v < 104857600 → calculate_new_chunk_size v = 1024 * 1024) ∧
      (104857600 ≤ v → calculate_new_chunk_size v = MAX_CHUNK_SIZE)) ∧
    (∀ (st : AdaptiveState) (v : ℚ) (bytes : ℕ) (elapsed : ℚ) (now : ℤ),
      0 < elapsed → (bytes : ℚ) = v * elapsed →
      st.speed_samples = List.replicate SPEED_SAMPLES v →
      st.sample_count ≤ SPEED_SAMPLES →
      st.current_chunk_size = calculate_new_chunk_size v →
      (adaptive_update st bytes elapsed now).current_chunk_size =
        st.current_chunk_size) := by
  refine ⟨?_, ?_, ?_⟩
  · intro st bytes elapsed now h1 h2
    simp only [adaptive_update]
    rw [if_neg (not_le.mpr h1), if_pos h2]
    simp only [rollingAvg]
  · intro v
    refine ⟨fun h1 => ?_, fun h1 h2 => ?_, fun h1 h2 => ?_, fun h1 h2 => ?_,
      fun h1 => ?_⟩
    · rw [calculate_new_chunk_size, if_pos (by linarith)]
    · rw [calculate_new_chunk_size, if_neg (by linarith), if_pos (by linarith)]
    · rw [calculate_new_chunk_size, if_neg (by linarith), if_neg (by linarith),
        if_pos (by linarith)]
    · rw [calculate_new_chunk_size, if_neg (by linarith), if_neg (by linarith),
        if_neg (by linarith), if_pos (by linarith)]
    · rw [calculate_new_chunk_size, if_neg (by linarith), if_neg (by linarith),
        if_neg (by linarith), if_neg (by linarith)]
  · intro st v bytes elapsed now h1 hbv hs hcnt hcur
    have hel : elapsed ≠ 0 := ne_of_gt h1
    have hspeed : (bytes : ℚ) / elapsed = v := by
      rw [hbv, mul_div_cancel_right₀ _ hel]
    have hS : SPEED_SAMPLES = 5 := rfl
    simp only [adaptive_update]
    rw [if_neg (not_le.mpr h1)]
    by_cases hadj : ADJUSTMENT_INTERVAL ≤ now - st.last_adjustment_time
    · rw [if_pos hadj]
      have havg : rollingAvg
          { st with
            speed_samples := st.speed_samples.set st.sample_index ((bytes : ℚ) / elapsed)
            sample_index := (st.sample_index + 1) % SPEED_SAMPLES
            sample_count :=
              if st.sample_count < SPEED_SAMPLES then st.sample_count + 1
              else st.sample_count
            bytes_transferred := st.bytes_transferred + bytes
            bytes_sent_or_received := st.bytes_sent_or_received + bytes } = v := by
        refine rollingAvg_replicate _ v ?_ ?_ ?_
        · dsimp only
          rw [hspeed, hs, replicate_set_self]
        · dsimp only
          split <;> omega
        · dsimp only
          split <;> omega
      dsimp only
      rw [havg, hcur]
    · rw [if_neg hadj]

/-- Counterexample for C4 as stated: at an average of exactly 1 MB/s (a tier
boundary), the code picks 64 KiB — the upper tier — not the lower tier's
8 KiB.  The run fires an adjustment (init at time 0, update at time 2) whose
rolling average is exactly 1048576 B/s. -/
theorem claim_C4_boundary_counterexample :
    rollingAvg (adaptive_update (adaptive_init 0 0) 1048576 1 2) = 1048576 ∧
    (adaptive_update (adaptive_init 0 0) 1048576 1 2).current_chunk_size = 64 * 1024 ∧
    (adaptive_update (adaptive_init 0 0) 1048576 1 2).current_chunk_size ≠
      MIN_CHUNK_SIZE := by
  refine ⟨?_, ?_, ?_⟩ <;>
    norm_num [adaptive_update, adaptive_init, rollingAvg, calculate_new_chunk_size,
      MIN_CHUNK_SIZE, MAX_CHUNK_SIZE, INITIAL_CHUNK_SIZE, SPEED_SAMPLES,
      ADJUSTMENT_INTERVAL, List.replicate, List.set]

/-- Witness for C4 at a concrete state and update. -/
theorem claim_C4_witness :
    (adaptive_update (adaptive_init 0 0) 1 1 2).current_chunk_size =
      calculate_new_chunk_size (rollingAvg (adaptive_update (adaptive_init 0 0) 1 1 2)) :=
  claim_C4_adaptive_tiers.1 (adaptive_init 0 0) 1 1 2 (by norm_num) (by decide)

/-- Claim C1: round-trip equivalence.  Feeding the sender's byte stream to
the receiver reproduces the file exactly: a single FILE transfer writes a
file named `basename filepath` whose content equals the source content, and
a DIR tree transfer reproduces every (relative path, content) pair of the
walked tree under the received base directory, consuming the whole stream.
The schedules are the chunk sizes the adaptive layer supplies (always
positive); lengths are bounded by `uint64_t` as the headers require. -/
theorem claim_C1_roundtrip :
    (∀ (schedS schedR : ℕ → ℕ) (filepath content : List ℕ),
      (∀ i, 1 ≤ schedS i) → (∀ i, 1 ≤ schedR i) →
      basename filepath ≠ [] → (basename filepath).length < 2 ^ 64 →
      content.length < 2 ^ 64 →
      receive_file_model schedR (send_file_protocol_stream schedS filepath content) =
        RxResult.file (some ((basename filepath, content), []))) ∧
    (∀ (schedS schedR : ℕ → ℕ) (dirpath : List ℕ)
        (entries : List (List ℕ × List ℕ)),
      (∀ i, 1 ≤ schedS i) → (∀ i, 1 ≤ schedR i) →
      basename dirpath ≠ [] → (basename dirpath).length < 2 ^ 64 →
      entriesWf entries →
      receive_file_model schedR (send_directory_protocol_stream schedS dirpath entries) =
        RxResult.dir (some ((basename dirpath,
          entries.map (fun e => (basename dirpath ++ [47] ++ e.1, e.2))), []))) := by
  constructor
  · intro schedS schedR filepath content hS hR hne hn hc
    rw [send_file_protocol_stream, sendChunks_eq schedS hS]
    simp only [List.append_assoc]
    set R := be64 content.length ++ (be64 (basename filepath).length ++
      (basename filepath ++ content)) with hRdef
    have hlen : 4 ≤ (be32 FILE_MAGIC ++ R).length := by
      rw [List.length_append, be32_length]
      omega
    have hm : readBe32 ((be32 FILE_MAGIC ++ R).take 4) = FILE_MAGIC := by
      rw [List.take_left' (be32_length FILE_MAGIC)]
      exact readBe32_be32 FILE_MAGIC (by norm_num [FILE_MAGIC])
    rw [receive_file_model_file schedR _ hlen hm,
      List.drop_left' (be32_length FILE_MAGIC), hRdef,
      recv_file_protocol_spec_nil schedR hR _ _ hn hc]
  · intro schedS schedR dirpath entries hS hR hne hb hwf
    rw [send_directory_protocol_stream, send_directory_recursive_stream_eq schedS hS]
    simp only [List.append_assoc]
    set R := be64 entries.length ++ (be64 (totalSize entries) ++
      (be64 (basename dirpath).length ++ (basename dirpath ++
        (entriesWire entries ++ (be64 0 ++ be64 0))))) with hRdef
    have hlen : 4 ≤ (be32 DIR_MAGIC ++ R).length := by
      rw [List.length_append, be32_length]
      omega
    have hm : readBe32 ((be32 DIR_MAGIC ++ R).take 4) = DIR_MAGIC := by
      rw [List.take_left' (be32_length DIR_MAGIC)]
      exact readBe32_be32 DIR_MAGIC (by norm_num [DIR_MAGIC])
    rw [receive_file_model_dir schedR _ hlen hm,
      List.drop_left' (be32_length DIR_MAGIC), hRdef,
      recv_directory_protocol_spec_nil schedR hR entries.length (totalSize entries)
        (basename dirpath) entries hb hwf]
    simp only [List.append_assoc]

/-- Witness for C1: a 2-byte file named "a", and a one-entry tree "d"
containing the file "h" with one byte of content. -/
theorem claim_C1_witness :
    receive_file_model (fun _ => 1)
        (send_file_protocol_stream (fun _ => 2) [97] [104, 105]) =
      RxResult.file (some ((basename [97], [104, 105]), [])) ∧
    receive_file_model (fun _ => 1)
        (send_directory_protocol_stream (fun _ => 2) [100] [([104], [255])]) =
      RxResult.dir (some ((basename [100], [([100, 47, 104], [255])]), [])) :=
  ⟨claim_C1_roundtrip.1 (fun _ => 2) (fun _ => 1) [97] [104, 105]
      (fun _ => by norm_num) (fun _ => le_refl 1) (by decide) (by decide) (by decide),
   claim_C1_roundtrip.2 (fun _ => 2) (fun _ => 1) [100] [([104], [255])]
      (fun _ => by norm_num) (fun _ => le_refl 1) (by decide) (by decide)
      (by unfold entriesWf; decide)⟩

/-- Claim C6: in a legacy DIR transfer the receiver halts on the first
zero/zero entry header, consuming exactly its 16 bytes; the sentinel is not
counted as a received file (the result list has exactly one element per real
entry) and no bytes after the sentinel are consumed by this frame (`rest` is
returned untouched). -/
theorem claim_C6_dir_sentinel :
    (∀ (sched : ℕ → ℕ) (base_dir rest : List ℕ),
      receive_single_file_in_dir sched base_dir (be64 0 ++ (be64 0 ++ rest)) =
        some (none, rest)) ∧
    (∀ (sched : ℕ → ℕ) (fuel : ℕ) (base_dir rest : List ℕ)
        (entries : List (List ℕ × List ℕ)),
      (∀ i, 1 ≤ sched i) → entries.length < fuel → entriesWf entries →
      recv_dir_loop sched fuel base_dir
          (entriesWire entries ++ (be64 0 ++ (be64 0 ++ rest))) =
        some (entries.map (fun e => (base_dir ++ [47] ++ e.1, e.2)), rest)) :=
  ⟨receive_single_file_in_dir_sentinel,
   fun sched fuel base_dir rest entries h hf hwf =>
     recv_dir_loop_spec sched h entries fuel base_dir rest hf hwf⟩

/-- Witness for C6: the empty tree followed by the sentinel and two stray
bytes; the loop stops at once and leaves the stray bytes unread. -/
theorem claim_C6_witness :
    recv_dir_loop (fun _ => 1) 1 [98] (entriesWire [] ++ (be64 0 ++ (be64 0 ++ [7, 9]))) =
      some ([], [7, 9]) :=
  claim_C6_dir_sentinel.2 (fun _ => 1) 1 [98] [7, 9] [] (fun _ => le_refl 1)
    (by norm_num) (fun e he => absurd he (List.not_mem_nil e))

/-- Claim C7: a TDIR transfer consumes exactly the `total_files` entries the
directory header declares and then stops; whatever follows the last entry —
including bytes that look like a zero/zero sentinel — is left unconsumed. -/
theorem claim_C7_tdir_count :
    (∀ (sched : ℕ → ℕ) (base_dir rest : List ℕ) (entries : List (List ℕ × List ℕ)),
      (∀ i, 1 ≤ sched i) → entriesWf entries →
      recv_tdir_loop sched entries.length base_dir (entriesWire entries ++ rest) =
        some (entries.map (fun e => (base_dir ++ [47] ++ e.1, e.2)), rest)) ∧
    (∀ (sched : ℕ → ℕ) (ts : ℕ) (base st : List ℕ)
        (entries : List (List ℕ × List ℕ)) (rest : List ℕ),
      (∀ i, 1 ≤ sched i) → base.length < 2 ^ 64 → st.length < 2 ^ 64 →
      entries.length < 2 ^ 64 → entriesWf entries →
      recv_directory_with_target_protocol sched
        (be64 entries.length ++ (be64 ts ++ (be64 base.length ++ (be64 st.length ++
          (base ++ (st ++ (entriesWire entries ++ rest))))))) =
        some (((if 0 < st.length then [FsOp.mkdirRec st] else []) ++
            [FsOp.mkdirRec (if 0 < st.length then st ++ [47] ++ base else base)],
          entries.map (fun e =>
            ((if 0 < st.length then st ++ [47] ++ base else base) ++ [47] ++ e.1, e.2))),
          rest)) :=
  ⟨fun sched base_dir rest entries h hwf =>
     recv_tdir_loop_spec sched h entries base_dir rest hwf,
   fun sched ts base st entries rest h hb hst hn hwf =>
     recv_directory_with_target_protocol_spec sched h ts base st entries rest
       hb hst hn hwf⟩

/-- Witness for C7: one declared entry followed by sentinel-shaped bytes;
exactly one entry is consumed and the trailing 16 bytes stay unread. -/
theorem claim_C7_witness :
    recv_tdir_loop (fun _ => 1) 1 [100]
        (entriesWire [([104], [255])] ++ (be64 0 ++ be64 0)) =
      some ([([100, 47, 104], [255])], be64 0 ++ be64 0) :=
  claim_C7_tdir_count.1 (fun _ => 1) [100] (be64 0 ++ be64 0) [([104], [255])]
    (fun _ => le_refl 1) (by unfold entriesWf; decide)

/-- Claim C10 (implicit): in a TDIR transfer, a counted entry whose header is
zero/zero makes `receive_single_file_in_dir` return 1, which the counting
loop treats as an error: the whole transfer aborts.  A zero-length file with
an empty name therefore can never be received in a tree-with-target
transfer. -/
theorem claim_C10_tdir_zero_entry_aborts :
    ∀ (sched : ℕ → ℕ) (n : ℕ) (base_dir tail : List ℕ)
      (entries : List (List ℕ × List ℕ)),
      (∀ i, 1 ≤ sched i) → entries.length < n → entriesWf entries →
      recv_tdir_loop sched n base_dir
          (entriesWire entries ++ (be64 0 ++ (be64 0 ++ tail))) = none :=
  fun sched n base_dir tail entries h hn hwf =>
    recv_tdir_loop_abort sched h entries n base_dir tail hn hwf

/-- Witness for C10: a TDIR loop expecting one entry that meets a zero/zero
header aborts. -/
theorem claim_C10_witness :
    recv_tdir_loop (fun _ => 1) 1 [100] (entriesWire [] ++ (be64 0 ++ (be64 0 ++ []))) =
      none :=
  claim_C10_tdir_zero_entry_aborts (fun _ => 1) 1 [100] [] [] (fun _ => le_refl 1)
    (by norm_num) (fun e he => absurd he (List.not_mem_nil e))

/-- Claim C8: the receiver consumes exactly 4 magic bytes before dispatching;
the four known magics route to their four handlers (which receive exactly
the rest of the stream); any other 4-byte value is an unknown frame that
reaches no handler and causes no filesystem side effects. -/
theorem claim_C8_magic_dispatch (sched : ℕ → ℕ) (stream : List ℕ)
    (h4 : 4 ≤ stream.length) :
    (detect_transfer_type stream =
      some ((if readBe32 (stream.take 4) = FILE_MAGIC then 0
        else if readBe32 (stream.take 4) = DIR_MAGIC then 1
        else if readBe32 (stream.take 4) = TARGET_FILE_MAGIC then 2
        else if readBe32 (stream.take 4) = TARGET_DIR_MAGIC then 3 else -1),
        stream.drop 4)) ∧
    (readBe32 (stream.take 4) = FILE_MAGIC →
      receive_file_model sched stream =
        RxResult.file (recv_file_protocol sched (stream.drop 4))) ∧
    (readBe32 (stream.take 4) = DIR_MAGIC →
      receive_file_model sched stream =
        RxResult.dir (recv_directory_protocol sched (stream.drop 4))) ∧
    (readBe32 (stream.take 4) = TARGET_FILE_MAGIC →
      receive_file_model sched stream =
        RxResult.targ (recv_file_with_target_protocol sched (stream.drop 4))) ∧
    (readBe32 (stream.take 4) = TARGET_DIR_MAGIC →
      receive_file_model sched stream =
        RxResult.tdir (recv_directory_with_target_protocol sched (stream.drop 4))) ∧
    (readBe32 (stream.take 4) ≠ FILE_MAGIC → readBe32 (stream.take 4) ≠ DIR_MAGIC →
      readBe32 (stream.take 4) ≠ TARGET_FILE_MAGIC →
      readBe32 (stream.take 4) ≠ TARGET_DIR_MAGIC →
      receive_file_model sched stream = RxResult.unknown (stream.drop 4) ∧
        rxEffects (receive_file_model sched stream) = []) := by
  have hr : readN 4 stream = some (stream.take 4, stream.drop 4) := by
    unfold readN
    rw [if_neg (by omega)]
  have hd : detect_transfer_type stream =
      some ((if readBe32 (stream.take 4) = FILE_MAGIC then 0
        else if readBe32 (stream.take 4) = DIR_MAGIC then 1
        else if readBe32 (stream.take 4) = TARGET_FILE_MAGIC then 2
        else if readBe32 (stream.take 4) = TARGET_DIR_MAGIC then 3 else -1),
        stream.drop 4) := by
    simp only [detect_transfer_type, hr]
    split_ifs <;> rfl
  refine ⟨hd, ?_, ?_, ?_, ?_, ?_⟩
  · intro hm
    simp only [receive_file_model, hd, hm, if_pos rfl]
    norm_num [FILE_MAGIC, DIR_MAGIC, TARGET_FILE_MAGIC, TARGET_DIR_MAGIC]
  · intro hm
    simp only [receive_file_model, hd, hm]
    norm_num [FILE_MAGIC, DIR_MAGIC, TARGET_FILE_MAGIC, TARGET_DIR_MAGIC]
  · intro hm
    simp only [receive_file_model, hd, hm]
    norm_num [FILE_MAGIC, DIR_MAGIC, TARGET_FILE_MAGIC, TARGET_DIR_MAGIC]
  · intro hm
    simp only [receive_file_model, hd, hm]
    norm_num [FILE_MAGIC, DIR_MAGIC, TARGET_FILE_MAGIC, TARGET_DIR_MAGIC]
  · intro h1 h2 h3 hx
    have hu : receive_file_model sched stream = RxResult.unknown (stream.drop 4) := by
      simp only [receive_file_model, hd, if_neg h1, if_neg h2, if_neg h3, if_neg hx]
      norm_num
    exact ⟨hu, by rw [hu]; rfl⟩

/-- Witness for C8: an all-zero magic is refused with no handler invoked and
no filesystem effects. -/
theorem claim_C8_witness :
    receive_file_model (fun _ => 1) [0, 0, 0, 0] = RxResult.unknown [] ∧
      rxEffects (receive_file_model (fun _ => 1) [0, 0, 0, 0]) = [] :=
  (claim_C8_magic_dispatch (fun _ => 1) [0, 0, 0, 0] (by norm_num)).2.2.2.2.2
    (by decide) (by decide) (by decide) (by decide)

/-- Evaluation for C2 (code bug): the receiver of a TARG frame performs no
sanitization at all.  Fed a target directory of "/e" (leading slash) it
creates the absolute directory "/e" and writes "/e/a"; fed ".." (traversal)
it creates ".." and writes "../a".  In both runs the transfer succeeds
instead of being rejected before any directory or file is created. -/
theorem claim_C2_receiver_never_sanitizes :
    recv_file_with_target_protocol (fun _ => 1)
        (be64 1 ++ (be64 1 ++ (be64 2 ++ ([97] ++ ([47, 101] ++ [255]))))) =
      some ([FsOp.mkdirRec [47, 101], FsOp.writeFile [47, 101, 47, 97] [255]], []) ∧
    recv_file_with_target_protocol (fun _ => 1)
        (be64 1 ++ (be64 1 ++ (be64 2 ++ ([97] ++ ([46, 46] ++ [255]))))) =
      some ([FsOp.mkdirRec [46, 46], FsOp.writeFile [46, 46, 47, 97] [255]], []) ∧
    validate_target_directory [47, 101] = none ∧
    validate_target_directory [46, 46] = none := by
  decide

/-- Evaluation for C3 (code bug): the receiver of a plain FILE frame opens
its output at the received filename verbatim; a filename "a/b" containing a
slash is not refused — the file is opened at the path "a/b". -/
theorem claim_C3_receiver_accepts_slash :
    recv_file_protocol (fun _ => 1) (be64 1 ++ (be64 3 ++ ([97, 47, 98] ++ [255]))) =
      some (([97, 47, 98], [255]), []) ∧ (47 : ℕ) ∈ [97, 47, 98] := by
  decide
